import Mathlib

/-!
Shallow embedding of the download-and-assemble pipeline of `app.py` /
`pytubefix.py` (a Streamlit orchestration script around two external tools:
the pytubefix extraction library and ffmpeg/yt-dlp subprocesses).

External collaborators (ffmpeg, yt-dlp, the extraction library, zlib) are
modelled as oracles supplied through an `Env` record: each subprocess call
site gets its exit code and produced bytes from `Env`, and the script's own
control flow, file bookkeeping, session-state updates and displayed messages
are translated literally from the source.
-/

/-- Bytes of a file, modelled as a list of byte values. -/
abbrev Bytes := List Nat

/-- Python's `str.isspace` character test — the exact set of code points
that `str.strip()` removes: 0x09-0x0D, 0x1C-0x20, NEL (0x85), NBSP (0xA0),
and the Unicode space separators (U+1680, U+2000-U+200A, U+2028, U+2029,
U+202F, U+205F, U+3000). -/
def pyIsSpace (c : Char) : Bool :=
  let n := c.toNat
  (0x09 ≤ n && n ≤ 0x0d) || (0x1c ≤ n && n ≤ 0x20) || n == 0x85 || n == 0xa0 ||
  n == 0x1680 || (0x2000 ≤ n && n ≤ 0x200a) || n == 0x2028 || n == 0x2029 ||
  n == 0x202f || n == 0x205f || n == 0x3000

/-- Python `str.strip()`: drop `pyIsSpace` characters from both ends. -/
def pyStrip (s : String) : String :=
  String.mk (((s.toList.dropWhile pyIsSpace).reverse.dropWhile
    pyIsSpace).reverse)

/-- The first character list is an initial segment of the second. -/
def hasPre : List Char → List Char → Bool
  | [], _ => true
  | _ :: _, [] => false
  | p :: ps, c :: cs => p == c && hasPre ps cs

/-- Substring occurrence test over character lists. -/
def hasSub (pat : List Char) : List Char → Bool
  | [] => hasPre pat []
  | c :: cs => hasPre pat (c :: cs) || hasSub pat cs

/-- Python `pat in s` containment test on strings. -/
def strContains (s pat : String) : Bool := hasSub pat.toList s.toList

/-- `os.path.join` for a directory and one component. -/
def joinPath (dir name : String) : String := dir ++ "/" ++ name

/-- `os.path.basename`: the part of a path after the last slash. -/
def basename (p : String) : String :=
  String.mk ((p.toList.reverse.takeWhile (fun c => c != '/')).reverse)

/-- Python's `str.isalnum` character test (true on every Unicode letter and
numeric character). The table below is Python's exact behaviour on the Basic
Latin and Latin-1 blocks (U+0000-U+00FF): the ASCII alphanumerics plus the
Latin-1 letters and numeric signs (ª ² ³ µ ¹ º ¼ ½ ¾ and the accented
letters, with × and ÷ excluded). Python's test continues over the rest of
Unicode; code points above U+00FF are outside the modelled range, which is
why the theorems below quantify over the alphanumeric test wherever the
table's extent could matter. -/
def pyIsAlnum (c : Char) : Bool :=
  let n := c.toNat
  (0x30 ≤ n && n ≤ 0x39) || (0x41 ≤ n && n ≤ 0x5a) || (0x61 ≤ n && n ≤ 0x7a) ||
  n == 0xaa || n == 0xb2 || n == 0xb3 || n == 0xb5 || n == 0xb9 || n == 0xba ||
  (0xbc ≤ n && n ≤ 0xbe) || (0xc0 ≤ n && n ≤ 0xd6) || (0xd8 ≤ n && n ≤ 0xf6) ||
  (0xf8 ≤ n && n ≤ 0xff)

/-- Characters kept verbatim by `sanitize`: Python's `c.isalnum()` or
membership in the literal `" ._-()"`. -/
def keepChar (c : Char) : Bool := pyIsAlnum c || " ._-()".toList.contains c

/-- `sanitize` from `app.py` line 20 over an arbitrary alphanumeric test
(the collaborating `str.isalnum`): `name = (name or "video").strip()`
followed by replacing every character that the test and the literal set both
reject with `_`. The Python truthiness test `name or "video"` substitutes
the placeholder exactly when `name` is the empty string, before stripping. -/
def sanitizeWith (alnum : Char → Bool) (name : String) : String :=
  let name := pyStrip (if name = "" then "video" else name)
  String.mk (name.toList.map
    (fun c => if alnum c || " ._-()".toList.contains c then c else '_'))

/-- `sanitize` from `app.py` line 20, at the modelled `pyIsAlnum` table. -/
def sanitize (name : String) : String := sanitizeWith pyIsAlnum name

/-- A flat file system: association list from path to contents. -/
abbrev FL := List (String × Bytes)

/-- Write (create or overwrite) a file. -/
def writeFile (fs : FL) (path : String) (b : Bytes) : FL :=
  (path, b) :: fs.filter (fun e => e.1 != path)

/-- Read a file's bytes (empty if absent). -/
def readFile (fs : FL) (path : String) : Bytes :=
  match fs.find? (fun e => e.1 == path) with
  | some e => e.2
  | none => []

/-- `os.path.exists` on the modelled file system. -/
def fileExists (fs : FL) (path : String) : Bool :=
  fs.any (fun e => e.1 == path)

/-- A path lies underneath a directory. -/
def underDir (dir : String) (path : String) : Bool :=
  hasPre (dir ++ "/").toList path.toList

/-- Teardown of a `tempfile.TemporaryDirectory`: every file underneath the
directory is removed, as the context manager guarantees on scope exit. -/
def cleanupDir (dir : String) (fs : FL) : FL :=
  fs.filter (fun e => !underDir dir e.1)

/-- A stream descriptor of the extraction collaborator: kind flags, container
hint and quality metrics, as used by `pick_streams`. -/
structure StreamDesc where
  adaptive : Bool
  only_video : Bool
  only_audio : Bool
  ext : String
  resolution : Nat
  abr : Nat
deriving DecidableEq, Repr

/-- Modelled from the spec: the extraction collaborator's
`.order_by(key).desc().first()` on a filtered stream query returns an element
of maximal key, or nothing when the query is empty (spec sections 4.1 and 6:
representations "ranked by descending resolution", first taken). -/
def bestBy (key : StreamDesc → Nat) : List StreamDesc → Option StreamDesc
  | [] => none
  | d :: ds =>
    match bestBy key ds with
    | none => some d
    | some b => if key b ≤ key d then some d else some b

/-- `pick_streams` from `app.py` line 24: best adaptive video-only mp4 stream,
else best adaptive video-only stream of any container; best audio-only mp4
stream by bitrate, else best audio-only stream of any container. -/
def pick_streams (streams : List StreamDesc) : Option StreamDesc × Option StreamDesc :=
  let v0 := bestBy (fun d => d.resolution)
    (streams.filter (fun d => d.adaptive && d.only_video && d.ext == "mp4"))
  let v := match v0 with
    | some x => some x
    | none => bestBy (fun d => d.resolution)
        (streams.filter (fun d => d.adaptive && d.only_video))
  let a0 := bestBy (fun d => d.abr)
    (streams.filter (fun d => d.only_audio && d.ext == "mp4"))
  let a := match a0 with
    | some x => some x
    | none => bestBy (fun d => d.abr) (streams.filter (fun d => d.only_audio))
  (v, a)

/-- A Python exception as observed by the `except` block: its string message,
whether it is an `urllib.error.HTTPError`, and its HTTP status code if any. -/
structure Exc where
  msg : String
  isHTTP : Bool
  code : Option Nat
deriving DecidableEq, Repr

/-- Proxy configuration passed to the extraction collaborator. -/
structure Proxies where
  http : String
  https : String
deriving DecidableEq, Repr

/-- `app.py` line 120: `proxies = {"http": proxy_url, "https": proxy_url} if
proxy_url.strip() else None`. -/
def mkProxies (proxy_url : String) : Option Proxies :=
  if pyStrip proxy_url ≠ "" then some ⟨proxy_url, proxy_url⟩ else none

/-- Oracle for everything the script delegates to the outside world: user
inputs, the extraction collaborator's outcome, and one exit code plus output
bytes per subprocess call site. -/
structure Env where
  ffmpeg_ok : Bool
  url : String
  use_oauth : Bool
  proxy_url : String
  enable_fallback : Bool
  cookies_file : Option Bytes
  ytOutcome : Except Exc String
  vStream : Option Bytes
  aStream : Option Bytes
  copyExit : Nat
  copyBytes : Bytes
  encExit : Nat
  encBytes : Bytes
  mp3Exit : Nat
  mp3Bytes : Bytes
  wavExit : Nat
  wavBytes : Bytes
  ytdlpExit : Nat
  ytdlpLog : String
  ytdlpFile : Option Bytes
  fbMp3Exit : Nat
  fbMp3Bytes : Bytes
  fbWavExit : Nat
  fbWavBytes : Bytes
deriving Repr

/-- The two mux strategies of `merge_to_mp4`. -/
inductive MuxAttempt where
  | copy
  | reencode
deriving DecidableEq, Repr

/-- The `subprocess.CalledProcessError` raised by `subprocess.run(cmd,
check=True)` on a non-zero exit status, with its standard message. -/
def calledProcessError (tag : String) (c : Nat) : Exc :=
  ⟨"Command " ++ tag ++ " returned non-zero exit status " ++ toString c ++ ".",
    false, none⟩

/-- `merge_to_mp4` from `app.py` line 38: run the stream-copy mux; on exit 0
return (the processor wrote `out_path`); otherwise run the re-encode mux with
`check=True`, which writes `out_path` on success and raises on failure. The
returned list records the mux attempts actually started, in order. -/
def merge_to_mp4 (env : Env) (fs : FL) (video_path audio_path out_path : String) :
    List MuxAttempt × Except Exc FL :=
  if env.copyExit = 0 then
    ([MuxAttempt.copy], Except.ok (writeFile fs out_path env.copyBytes))
  else if env.encExit = 0 then
    ([MuxAttempt.copy, MuxAttempt.reencode],
      Except.ok (writeFile fs out_path env.encBytes))
  else
    ([MuxAttempt.copy, MuxAttempt.reencode],
      Except.error (calledProcessError "ffmpeg" env.encExit))

/-- `ytdlp_download_mp4` from `app.py` line 60: non-zero exit raises
`RuntimeError`; on success the tool leaves the merged mp4 at
`tmpdir/base.mp4` (when it produced one); the function then checks
`os.path.exists` and raises `FileNotFoundError` when the file is absent. -/
def ytdlp_download_mp4 (env : Env) (fs : FL) (tmpdir base : String) :
    Except Exc (String × FL) :=
  if env.ytdlpExit ≠ 0 then
    Except.error ⟨"yt-dlp a échoué:\n" ++ env.ytdlpLog, false, none⟩
  else
    let fs := match env.ytdlpFile with
      | some b => writeFile fs (joinPath tmpdir (base ++ ".mp4")) b
      | none => fs
    let mp4_path := joinPath tmpdir (base ++ ".mp4")
    if fileExists fs mp4_path then Except.ok (mp4_path, fs)
    else Except.error ⟨"MP4 non trouvé après yt-dlp", false, none⟩

/-- `zipfile.ZIP_DEFLATED`. -/
def ZIP_DEFLATED : Nat := 8

/-- One archive member: entry name, compression method, and the bytes that
decompressing the stored (deflated) data yields — which `zipfile.write`
guarantees to be exactly the source file's bytes. -/
structure ZipEntry where
  arcname : String
  method : Nat
  data : Bytes
deriving DecidableEq, Repr

/-- `z.write(path, arcname=os.path.basename(path))` on an archive opened with
`compression=zipfile.ZIP_DEFLATED`. -/
def zipWrite (fs : FL) (z : List ZipEntry) (path : String) : List ZipEntry :=
  z ++ [⟨basename path, ZIP_DEFLATED, readFile fs path⟩]

/-- The packaging block: three `z.write` calls on a fresh in-memory archive. -/
def mkZipThree (fs : FL) (mp4_path mp3_path wav_path : String) : List ZipEntry :=
  zipWrite fs (zipWrite fs (zipWrite fs [] mp4_path) mp3_path) wav_path

/-- `st.session_state` as the script uses it: the `zip_bytes` and `zip_name`
slots of the result store. -/
structure SessionState where
  zip_bytes : Option (List ZipEntry)
  zip_name : Option String
deriving DecidableEq, Repr

/-- Everything observable after one run of the submit handler: the session
state, the disk, the `st.error` and `st.success` messages displayed during
the run, the mux attempts started, whether the yt-dlp fallback ran, and the
proxy configuration handed to the extraction collaborator. -/
structure RunOut where
  state : SessionState
  fs : FL
  errors : List String
  successes : List String
  attempts : List MuxAttempt
  usedFallback : Bool
  proxies : Option Proxies
deriving DecidableEq, Repr

/-- The primary (pytubefix) pipeline body inside its
`tempfile.TemporaryDirectory` (named `tmp1` here): download both streams,
merge, derive mp3 and wav, package. Returns the archive or the first raised
exception, the file system as left inside the scope, and the mux attempts. -/
def primaryJob (env : Env) (fs : FL) (base : String) :
    Except Exc (List ZipEntry) × FL × List MuxAttempt :=
  match env.vStream, env.aStream with
  | some vb, some ab =>
    let v_path := joinPath "tmp1" (base ++ "_v")
    let a_path := joinPath "tmp1" (base ++ "_a")
    let fs1 := writeFile (writeFile fs v_path vb) a_path ab
    let mp4_path := joinPath "tmp1" (base ++ ".mp4")
    match merge_to_mp4 env fs1 v_path a_path mp4_path with
    | (atts, Except.error e) => (Except.error e, fs1, atts)
    | (atts, Except.ok fs2) =>
      let mp3_path := joinPath "tmp1" (base ++ ".mp3")
      let wav_path := joinPath "tmp1" (base ++ ".wav")
      if env.mp3Exit ≠ 0 then
        (Except.error (calledProcessError "ffmpeg-mp3" env.mp3Exit), fs2, atts)
      else
        let fs3 := writeFile fs2 mp3_path env.mp3Bytes
        if env.wavExit ≠ 0 then
          (Except.error (calledProcessError "ffmpeg-wav" env.wavExit), fs3, atts)
        else
          let fs4 := writeFile fs3 wav_path env.wavBytes
          (Except.ok (mkZipThree fs4 mp4_path mp3_path wav_path), fs4, atts)
  | _, _ => (Except.error ⟨"Flux vidéo/audio introuvables.", false, none⟩, fs, [])

/-- The optional cookies block of the fallback (`app.py` lines 169-173):
when a cookies file was uploaded, its bytes are written to
`tmp/cookies.txt`. -/
def cookiesPrep (env : Env) (fs : FL) : FL :=
  match env.cookies_file with
  | some cb => writeFile fs (joinPath "tmp2" "cookies.txt") cb
  | none => fs

/-- The yt-dlp fallback body inside its own `tempfile.TemporaryDirectory`
(named `tmp2`): optional cookies file, yt-dlp download, mp3 and wav
derivatives, packaging. -/
def fallbackJob (env : Env) (fs : FL) : Except Exc (List ZipEntry) × FL :=
  let base := sanitize "video"
  let fs1 := cookiesPrep env fs
  match ytdlp_download_mp4 env fs1 "tmp2" base with
  | Except.error e => (Except.error e, fs1)
  | Except.ok (mp4_path, fs2) =>
    let mp3_path := joinPath "tmp2" (base ++ ".mp3")
    let wav_path := joinPath "tmp2" (base ++ ".wav")
    if env.fbMp3Exit ≠ 0 then
      (Except.error (calledProcessError "ffmpeg-mp3" env.fbMp3Exit), fs2)
    else
      let fs3 := writeFile fs2 mp3_path env.fbMp3Bytes
      if env.fbWavExit ≠ 0 then
        (Except.error (calledProcessError "ffmpeg-wav" env.fbWavExit), fs3)
      else
        let fs4 := writeFile fs3 wav_path env.fbWavBytes
        (Except.ok (mkZipThree fs4 mp4_path mp3_path wav_path), fs4)

/-- `app.py` line 163: `is_403 = ("403" in msg) or (isinstance(e, HTTPError)
and getattr(e, "code", None) == 403)`. -/
def is403 (e : Exc) : Bool :=
  strContains e.msg "403" || (e.isHTTP && e.code == some 403)

/-- The `except Exception as e` block of the submit handler (`app.py` line
161): run the yt-dlp fallback when enabled and the failure carries the 403
signal, otherwise display the error; the fallback's own failure is displayed
with the combined message. -/
def handleExc (env : Env) (s0 : SessionState) (fs : FL) (e : Exc)
    (atts : List MuxAttempt) (px : Option Proxies) : RunOut :=
  if env.enable_fallback && is403 e then
    match fallbackJob env fs with
    | (Except.ok z, fs1) =>
      ⟨⟨some z, some (sanitize "video" ++ ".zip")⟩, cleanupDir "tmp2" fs1, [],
        ["Préparation terminée via yt-dlp."], atts, true, px⟩
    | (Except.error e2, fs1) =>
      ⟨s0, cleanupDir "tmp2" fs1, ["Echec du fallback yt-dlp: " ++ e2.msg], [],
        atts, true, px⟩
  else
    ⟨s0, fs, ["Erreur: " ++ e.msg], [], atts, false, px⟩

/-- One run of the submit handler (`app.py` line 112): ffmpeg guard, URL
guard, proxy construction, primary pipeline with temporary-directory
teardown, success storing the bundle, exception handling with the fallback
path and its own teardown. -/
def submit (env : Env) (s0 : SessionState) (fs0 : FL) : RunOut :=
  if env.ffmpeg_ok = false then
    ⟨s0, fs0, ["ffmpeg introuvable. Installez-le et relancez."], [], [], false, none⟩
  else if pyStrip env.url = "" then
    ⟨s0, fs0, ["Veuillez entrer une URL."], [], [], false, none⟩
  else
    let px := mkProxies env.proxy_url
    match env.ytOutcome with
    | Except.error e => handleExc env s0 fs0 e [] px
    | Except.ok title =>
      let base := sanitize title
      match primaryJob env fs0 base with
      | (Except.ok z, fs1, atts) =>
        ⟨⟨some z, some (base ++ ".zip")⟩, cleanupDir "tmp1" fs1, [],
          ["Préparation terminée."], atts, false, px⟩
      | (Except.error e, fs1, atts) =>
        handleExc env s0 (cleanupDir "tmp1" fs1) e atts px

/-- The first exception raised inside the `try` block of the submit handler,
if any: either the extraction collaborator's failure, or the first failure of
the primary pipeline body. -/
def primaryFailure (env : Env) (fs0 : FL) : Option Exc :=
  match env.ytOutcome with
  | Except.error e => some e
  | Except.ok title =>
    match (primaryJob env fs0 (sanitize title)).1 with
    | Except.error e => some e
    | Except.ok _ => none

/-- No file on the disk lies under either temporary-directory scope. -/
def scratchFree (fs : FL) : Bool :=
  fs.all (fun e => !underDir "tmp1" e.1 && !underDir "tmp2" e.1)

/-! ## Basic string and file-system lemmas -/

theorem strToList_append (a b : String) : (a ++ b).toList = a.toList ++ b.toList := rfl

theorem mk_toList (s : String) : String.mk s.toList = s := rfl

theorem takeWhile_until_slash (l r : List Char) (h : ∀ x ∈ l, x ≠ '/') :
    (l ++ '/' :: r).takeWhile (fun c => c != '/') = l := by
  induction l with
  | nil => simp
  | cons a as ih =>
    have ha : (a != '/') = true := by
      simpa using h a (List.mem_cons_self a as)
    simp [List.takeWhile_cons, ha, ih (fun x hx => h x (List.mem_cons_of_mem a hx))]

theorem basename_join (d n : String) (h : '/' ∉ n.toList) :
    basename (joinPath d n) = n := by
  unfold basename joinPath
  have h1 : (d ++ "/" ++ n).toList = (d.toList ++ ['/']) ++ n.toList := rfl
  rw [h1, List.reverse_append, List.reverse_append]
  have h2 : (['/'].reverse ++ d.toList.reverse) = '/' :: d.toList.reverse := rfl
  rw [h2]
  rw [takeWhile_until_slash _ _ (fun x hx hx' => h (by simpa [hx'] using List.mem_reverse.mp hx))]
  rw [List.reverse_reverse]
  exact mk_toList n

theorem joinPath_sfx_ne (d b s t : String) (h : s.toList ≠ t.toList) :
    joinPath d (b ++ s) ≠ joinPath d (b ++ t) := by
  intro he
  apply h
  have h2 := congrArg String.toList he
  simp only [joinPath, strToList_append] at h2
  exact List.append_cancel_left (List.append_cancel_left h2)

theorem no_slash_append (a b : String) (ha : '/' ∉ a.toList) (hb : '/' ∉ b.toList) :
    '/' ∉ (a ++ b).toList := by
  rw [strToList_append]
  intro h
  rcases List.mem_append.mp h with h1 | h1
  · exact ha h1
  · exact hb h1

theorem readFile_writeFile_same (fs : FL) (p : String) (b : Bytes) :
    readFile (writeFile fs p b) p = b := by
  simp [readFile, writeFile, List.find?]

theorem find_filter_other (fs : FL) (p q : String) (h : q ≠ p) :
    ((fs.filter (fun e => e.1 != p)).find? (fun e => e.1 == q)) =
      fs.find? (fun e => e.1 == q) := by
  induction fs with
  | nil => rfl
  | cons a as ih =>
    by_cases h1 : a.1 = q
    · have hap : (a.1 != p) = true := by simp [h1, h]
      simp [List.filter_cons, hap, List.find?, h1, h]
    · by_cases h2 : a.1 = p
      · have hap : (a.1 != p) = false := by simp [h2]
        have haq : (a.1 == q) = false := by simp [h1]
        simp [List.filter_cons, hap, List.find?, haq, ih]
      · have hap : (a.1 != p) = true := by simp [h2]
        have haq : (a.1 == q) = false := by simp [h1]
        simp [List.filter_cons, hap, List.find?, haq, ih]

theorem readFile_writeFile_other (fs : FL) (p q : String) (b : Bytes) (h : q ≠ p) :
    readFile (writeFile fs p b) q = readFile fs q := by
  have hpq : (p == q) = false := by simp [Ne.symm h]
  simp only [readFile, writeFile, List.find?, hpq]
  rw [find_filter_other fs p q h]

theorem fileExists_writeFile_same (fs : FL) (p : String) (b : Bytes) :
    fileExists (writeFile fs p b) p = true := by
  simp [fileExists, writeFile, List.any_cons]

theorem mem_writeFile (fs : FL) (p q : String) (b c : Bytes)
    (h : (p, b) ∈ writeFile fs q c) : (p = q ∧ b = c) ∨ (p, b) ∈ fs := by
  rcases List.mem_cons.mp h with h1 | h1
  · left
    exact ⟨congrArg Prod.fst h1, congrArg Prod.snd h1⟩
  · right
    exact (List.mem_filter.mp h1).1

theorem mem_cleanupDir (fs : FL) (d p : String) (b : Bytes)
    (h : (p, b) ∈ cleanupDir d fs) : (p, b) ∈ fs ∧ underDir d p = false := by
  have := List.mem_filter.mp h
  refine ⟨this.1, ?_⟩
  simpa using this.2

theorem hasPre_append (l r : List Char) : hasPre l (l ++ r) = true := by
  induction l with
  | nil => rfl
  | cons a as ih => simp [hasPre, ih]

theorem underDir_joinPath (d n : String) : underDir d (joinPath d n) = true := by
  unfold underDir joinPath
  have h1 : (d ++ "/" ++ n).toList = (d ++ "/").toList ++ n.toList := rfl
  rw [h1]
  exact hasPre_append _ _

/-! ## Sanitize lemmas -/

theorem sanitize_chars (name : String) :
    ∀ c ∈ (sanitize name).toList, (keepChar c || c == '_') = true := by
  intro c hc
  have hc' : c ∈ ((pyStrip (if name = "" then "video" else name)).toList.map
      (fun c => if keepChar c then c else '_')) := hc
  rcases List.mem_map.mp hc' with ⟨x, _, hx⟩
  by_cases hk : keepChar x = true
  · rw [if_pos hk] at hx
    subst hx
    simp [hk]
  · rw [if_neg hk] at hx
    subst hx
    simp

theorem sanitize_no_slash (name : String) : '/' ∉ (sanitize name).toList := by
  intro h
  exact absurd (sanitize_chars name '/' h) (by decide)

/-! ## Case equations for the handler -/

theorem handleExc_no_fallback (env : Env) (s0 : SessionState) (fs : FL) (e : Exc)
    (atts : List MuxAttempt) (px : Option Proxies)
    (h : (env.enable_fallback && is403 e) = false) :
    handleExc env s0 fs e atts px = ⟨s0, fs, ["Erreur: " ++ e.msg], [], atts, false, px⟩ := by
  unfold handleExc
  rw [h]
  rfl

theorem handleExc_fb_ok (env : Env) (s0 : SessionState) (fs : FL) (e : Exc)
    (atts : List MuxAttempt) (px : Option Proxies) (z : List ZipEntry) (fs1 : FL)
    (h : (env.enable_fallback && is403 e) = true)
    (hfb : fallbackJob env fs = (Except.ok z, fs1)) :
    handleExc env s0 fs e atts px =
      ⟨⟨some z, some (sanitize "video" ++ ".zip")⟩, cleanupDir "tmp2" fs1, [],
        ["Préparation terminée via yt-dlp."], atts, true, px⟩ := by
  unfold handleExc
  rw [h, hfb]
  rfl

theorem handleExc_fb_err (env : Env) (s0 : SessionState) (fs : FL) (e : Exc)
    (atts : List MuxAttempt) (px : Option Proxies) (e2 : Exc) (fs1 : FL)
    (h : (env.enable_fallback && is403 e) = true)
    (hfb : fallbackJob env fs = (Except.error e2, fs1)) :
    handleExc env s0 fs e atts px =
      ⟨s0, cleanupDir "tmp2" fs1, ["Echec du fallback yt-dlp: " ++ e2.msg], [],
        atts, true, px⟩ := by
  unfold handleExc
  rw [h, hfb]
  rfl

theorem submit_no_ffmpeg (env : Env) (s0 : SessionState) (fs0 : FL)
    (h : env.ffmpeg_ok = false) :
    submit env s0 fs0 =
      ⟨s0, fs0, ["ffmpeg introuvable. Installez-le et relancez."], [], [], false, none⟩ := by
  unfold submit
  rw [if_pos h]

theorem submit_no_url (env : Env) (s0 : SessionState) (fs0 : FL)
    (h1 : env.ffmpeg_ok = true) (h2 : pyStrip env.url = "") :
    submit env s0 fs0 =
      ⟨s0, fs0, ["Veuillez entrer une URL."], [], [], false, none⟩ := by
  unfold submit
  rw [if_neg (by simp [h1]), if_pos h2]

theorem submit_yt_err (env : Env) (s0 : SessionState) (fs0 : FL) (e : Exc)
    (h1 : env.ffmpeg_ok = true) (h2 : pyStrip env.url ≠ "")
    (h3 : env.ytOutcome = Except.error e) :
    submit env s0 fs0 = handleExc env s0 fs0 e [] (mkProxies env.proxy_url) := by
  unfold submit
  rw [if_neg (by simp [h1]), if_neg h2, h3]

theorem submit_primary_ok (env : Env) (s0 : SessionState) (fs0 : FL)
    (title : String) (z : List ZipEntry) (fs1 : FL) (atts : List MuxAttempt)
    (h1 : env.ffmpeg_ok = true) (h2 : pyStrip env.url ≠ "")
    (h3 : env.ytOutcome = Except.ok title)
    (h4 : primaryJob env fs0 (sanitize title) = (Except.ok z, fs1, atts)) :
    submit env s0 fs0 =
      ⟨⟨some z, some (sanitize title ++ ".zip")⟩, cleanupDir "tmp1" fs1, [],
        ["Préparation terminée."], atts, false, mkProxies env.proxy_url⟩ := by
  unfold submit
  rw [if_neg (by simp [h1]), if_neg h2, h3]
  simp only [h4]

theorem submit_primary_err (env : Env) (s0 : SessionState) (fs0 : FL)
    (title : String) (e : Exc) (fs1 : FL) (atts : List MuxAttempt)
    (h1 : env.ffmpeg_ok = true) (h2 : pyStrip env.url ≠ "")
    (h3 : env.ytOutcome = Except.ok title)
    (h4 : primaryJob env fs0 (sanitize title) = (Except.error e, fs1, atts)) :
    submit env s0 fs0 =
      handleExc env s0 (cleanupDir "tmp1" fs1) e atts (mkProxies env.proxy_url) := by
  unfold submit
  rw [if_neg (by simp [h1]), if_neg h2, h3]
  simp only [h4]

theorem handleExc_proxies (env : Env) (s0 : SessionState) (fs : FL) (e : Exc)
    (atts : List MuxAttempt) (px : Option Proxies) :
    (handleExc env s0 fs e atts px).proxies = px := by
  by_cases h : (env.enable_fallback && is403 e) = true
  · cases hfb : fallbackJob env fs with
    | mk r fs1 =>
      cases r with
      | ok z => rw [handleExc_fb_ok env s0 fs e atts px z fs1 h hfb]
      | error e2 => rw [handleExc_fb_err env s0 fs e atts px e2 fs1 h hfb]
  · rw [handleExc_no_fallback env s0 fs e atts px (by simpa using h)]

/-! ## C1: sanitize -/

/-- C1 counterexample: the program keeps the non-ASCII alphanumeric 'é'
(Python's `'é'.isalnum()` is true), a character outside the claimed set
[A-Za-z0-9 ._-()] plus underscore — stated with Lean's ASCII `Char.isAlphanum`,
which is exactly [A-Za-z0-9]; and the whitespace-only input `" "` yields `""`
rather than the placeholder `"video"`, because the Python truthiness test
`name or "video"` sees the non-empty `" "` and `strip()` then empties it. -/
theorem sanitize_unicode_and_whitespace_cex :
    sanitize "é" = "é" ∧
    (Char.isAlphanum 'é' || " ._-()".toList.contains 'é' || 'é' == '_') = false ∧
    sanitize " " = "" ∧ sanitize " " ≠ "video" :=
  ⟨by decide, by decide, by decide, by decide⟩

/-- C1 (amended): for every alphanumeric test — in particular Python's
Unicode-wide `isalnum`, whose accepted characters exceed [A-Za-z0-9] — every
character of the sanitizer's output is either a character the test accepts,
one of `" ._-()"`, or `'_'`; the empty input yields the placeholder
`"video"`; but a nonempty input consisting only of whitespace yields the
empty string, not the placeholder. -/
theorem sanitize_charset_and_placeholder (alnum : Char → Bool) (name : String) :
    ((sanitizeWith alnum name).toList.all
      (fun c => alnum c || " ._-()".toList.contains c || c == '_')) = true ∧
    sanitize "" = "video" ∧
    (name ≠ "" → pyStrip name = "" → sanitizeWith alnum name = "") := by
  refine ⟨?_, by decide, ?_⟩
  · rw [List.all_eq_true]
    intro c hc
    have hc' : c ∈ ((pyStrip (if name = "" then "video" else name)).toList.map
        (fun c => if alnum c || " ._-()".toList.contains c then c else '_')) := hc
    rcases List.mem_map.mp hc' with ⟨x, _, hx⟩
    by_cases hk : (alnum x || " ._-()".toList.contains x) = true
    · rw [if_pos hk] at hx
      subst hx
      rw [hk]
      rfl
    · rw [if_neg hk] at hx
      subst hx
      simp
  · intro h1 h2
    show String.mk ((pyStrip (if name = "" then "video" else name)).toList.map
      (fun c => if alnum c || " ._-()".toList.contains c then c else '_')) = ""
    rw [if_neg h1, h2]
    rfl

/-- C1 witness: the amended theorem applied at the modelled Python test with
the accented input `"é"` and at the whitespace-only input `" "`. -/
theorem sanitize_charset_and_placeholder_witness :
    ((sanitizeWith pyIsAlnum "é").toList.all
      (fun c => pyIsAlnum c || " ._-()".toList.contains c || c == '_')) = true ∧
    sanitizeWith pyIsAlnum " " = "" :=
  ⟨(sanitize_charset_and_placeholder pyIsAlnum "é").1,
    (sanitize_charset_and_placeholder pyIsAlnum " ").2.2 (by decide) (by decide)⟩

/-! ## C3: merge_to_mp4 -/

/-- C3: the assembler always starts with the stream-copy attempt; the
re-encode attempt is started exactly once precisely when the copy attempt
exits non-zero; when the copy attempt succeeds the attempt list is just the
copy and the output file holds the copy-mode bytes; the call raises exactly
when both attempts fail. -/
theorem merge_copy_then_reencode (env : Env) (fs : FL) (v a o : String) :
    ((merge_to_mp4 env fs v a o).1 = [MuxAttempt.copy] ∨
      (merge_to_mp4 env fs v a o).1 = [MuxAttempt.copy, MuxAttempt.reencode]) ∧
    ((merge_to_mp4 env fs v a o).1.count MuxAttempt.reencode = 1 ↔ env.copyExit ≠ 0) ∧
    (env.copyExit = 0 →
      (merge_to_mp4 env fs v a o).1 = [MuxAttempt.copy] ∧
      (merge_to_mp4 env fs v a o).2 = Except.ok (writeFile fs o env.copyBytes)) ∧
    ((∃ e, (merge_to_mp4 env fs v a o).2 = Except.error e) ↔
      (env.copyExit ≠ 0 ∧ env.encExit ≠ 0)) := by
  by_cases hc : env.copyExit = 0
  · refine ⟨Or.inl ?_, ?_, fun _ => ⟨?_, ?_⟩, ?_⟩ <;>
      simp [merge_to_mp4, hc]
  · by_cases he : env.encExit = 0
    · refine ⟨Or.inr ?_, ?_, fun h => absurd h hc, ?_⟩ <;>
        simp [merge_to_mp4, hc, he]
    · refine ⟨Or.inr ?_, ?_, fun h => absurd h hc, ?_⟩ <;>
        simp [merge_to_mp4, hc, he]

/-- C3 witness: at a concrete environment whose copy attempt succeeds, the
copy-success clause of the theorem yields the copy-mode output. -/
theorem merge_copy_then_reencode_witness :
    (merge_to_mp4 ⟨true, "u", false, "", true, none, Except.ok "t", none, none,
        0, [1], 1, [2], 0, [3], 0, [4], 0, "", none, 0, [5], 0, [6]⟩
      [] "v" "a" "o").1 = [MuxAttempt.copy] ∧
    (merge_to_mp4 ⟨true, "u", false, "", true, none, Except.ok "t", none, none,
        0, [1], 1, [2], 0, [3], 0, [4], 0, "", none, 0, [5], 0, [6]⟩
      [] "v" "a" "o").2 = Except.ok (writeFile [] "o" [1]) :=
  (merge_copy_then_reencode _ [] "v" "a" "o").2.2.1 rfl

/-! ## C10: proxy construction -/

/-- C10: a proxy field that is non-blank after stripping is applied
identically to the http and the https schemes; a blank or whitespace-only
field yields no proxy configuration; and once both guards pass, one run of
the submit handler hands exactly `mkProxies proxy_url` to the extraction
collaborator. -/
theorem proxy_applied_both_schemes (pu : String) (env : Env) (s0 : SessionState)
    (fs0 : FL) :
    (pyStrip pu ≠ "" → mkProxies pu = some ⟨pu, pu⟩) ∧
    (pyStrip pu = "" → mkProxies pu = none) ∧
    (env.ffmpeg_ok = true → pyStrip env.url ≠ "" →
      (submit env s0 fs0).proxies = mkProxies env.proxy_url) := by
  refine ⟨fun h => by rw [mkProxies, if_pos h],
    fun h => by rw [mkProxies, if_neg (by simp [h])], ?_⟩
  intro h1 h2
  cases h3 : env.ytOutcome with
  | error e =>
    rw [submit_yt_err env s0 fs0 e h1 h2 h3]
    exact handleExc_proxies env s0 fs0 e [] (mkProxies env.proxy_url)
  | ok title =>
    cases h4 : primaryJob env fs0 (sanitize title) with
    | mk r rest =>
      cases rest with
      | mk fs1 atts =>
        cases r with
        | ok z => rw [submit_primary_ok env s0 fs0 title z fs1 atts h1 h2 h3 h4]
        | error e =>
          rw [submit_primary_err env s0 fs0 title e fs1 atts h1 h2 h3 h4]
          exact handleExc_proxies env s0 _ e atts (mkProxies env.proxy_url)

/-- C10 witness: a concrete proxy address is applied to both schemes, a
blank one yields none, and the handler passes the constructed value. -/
theorem proxy_applied_both_schemes_witness :
    mkProxies "http://h:1" = some ⟨"http://h:1", "http://h:1"⟩ ∧
    mkProxies " " = none ∧
    mkProxies "\x0b" = none :=
  ⟨(proxy_applied_both_schemes "http://h:1" ⟨true, "u", false, "", true, none,
      Except.ok "t", none, none, 0, [], 0, [], 0, [], 0, [], 0, "", none, 0, [], 0, []⟩
      ⟨none, none⟩ []).1 (by decide),
    (proxy_applied_both_schemes " " ⟨true, "u", false, "", true, none,
      Except.ok "t", none, none, 0, [], 0, [], 0, [], 0, [], 0, "", none, 0, [], 0, []⟩
      ⟨none, none⟩ []).2.1 (by decide),
    (proxy_applied_both_schemes "\x0b" ⟨true, "u", false, "", true, none,
      Except.ok "t", none, none, 0, [], 0, [], 0, [], 0, [], 0, "", none, 0, [], 0, []⟩
      ⟨none, none⟩ []).2.1 (by decide)⟩

/-! ## C6: stream selection -/

theorem bestBy_eq_none (key : StreamDesc → Nat) :
    ∀ l : List StreamDesc, bestBy key l = none → l = [] := by
  intro l h
  cases l with
  | nil => rfl
  | cons d ds =>
    rw [bestBy] at h
    cases hb : bestBy key ds with
    | none => simp only [hb] at h; cases h
    | some b0 =>
      simp only [hb] at h
      by_cases hk : key b0 ≤ key d
      · rw [if_pos hk] at h; cases h
      · rw [if_neg hk] at h; cases h

theorem bestBy_mem (key : StreamDesc → Nat) :
    ∀ (l : List StreamDesc) (b : StreamDesc), bestBy key l = some b → b ∈ l := by
  intro l
  induction l with
  | nil => intro b h; cases h
  | cons d ds ih =>
    intro b h
    rw [bestBy] at h
    cases hb : bestBy key ds with
    | none =>
      simp only [hb] at h
      cases h
      exact List.mem_cons_self d ds
    | some b0 =>
      simp only [hb] at h
      by_cases hk : key b0 ≤ key d
      · rw [if_pos hk] at h
        cases h
        exact List.mem_cons_self d ds
      · rw [if_neg hk] at h
        cases h
        exact List.mem_cons_of_mem d (ih b hb)

theorem bestBy_le (key : StreamDesc → Nat) :
    ∀ (l : List StreamDesc) (b : StreamDesc), bestBy key l = some b →
      ∀ x ∈ l, key x ≤ key b := by
  intro l
  induction l with
  | nil => intro b h; cases h
  | cons d ds ih =>
    intro b h x hx
    rw [bestBy] at h
    cases hb : bestBy key ds with
    | none =>
      simp only [hb] at h
      cases h
      have hds := bestBy_eq_none key ds hb
      subst hds
      rcases List.mem_cons.mp hx with h1 | h1
      · exact le_of_eq (congrArg key h1)
      · cases h1
    | some b0 =>
      simp only [hb] at h
      by_cases hk : key b0 ≤ key d
      · rw [if_pos hk] at h
        cases h
        rcases List.mem_cons.mp hx with h1 | h1
        · exact le_of_eq (congrArg key h1)
        · exact le_trans (ih b0 hb x h1) hk
      · rw [if_neg hk] at h
        cases h
        rcases List.mem_cons.mp hx with h1 | h1
        · exact le_trans (le_of_eq (congrArg key h1)) (le_of_lt (Nat.lt_of_not_le hk))
        · exact ih b hb x h1

theorem bestBy_filter_spec (key : StreamDesc → Nat) (p : StreamDesc → Bool)
    (streams : List StreamDesc) (h : ∃ d ∈ streams, p d = true) :
    ∃ w ∈ streams, bestBy key (streams.filter p) = some w ∧ p w = true ∧
      ∀ d ∈ streams, p d = true → key d ≤ key w := by
  have hne : streams.filter p ≠ [] := by
    rcases h with ⟨d, hd, hp⟩
    intro hnil
    have hmem : d ∈ streams.filter p := List.mem_filter.mpr ⟨hd, hp⟩
    rw [hnil] at hmem
    cases hmem
  cases hb : bestBy key (streams.filter p) with
  | none => exact absurd (bestBy_eq_none key _ hb) hne
  | some w =>
    have hw := List.mem_filter.mp (bestBy_mem key _ w hb)
    exact ⟨w, hw.1, rfl, hw.2, fun d hd hp =>
      bestBy_le key _ w hb d (List.mem_filter.mpr ⟨hd, hp⟩)⟩

/-- C6: stream selection is a deterministic function of the descriptor list:
when an adaptive video-only mp4 descriptor exists, the selected video stream
is such a descriptor of maximal resolution; otherwise, when any adaptive
video-only descriptor exists, one of maximal resolution regardless of
container is selected; the audio selection follows the same pattern with the
audio bitrate over audio-only descriptors. -/
theorem pick_streams_highest (streams : List StreamDesc) :
    ((∃ d ∈ streams, (d.adaptive && d.only_video && d.ext == "mp4") = true) →
      ∃ w ∈ streams, (pick_streams streams).1 = some w ∧
        (w.adaptive && w.only_video && w.ext == "mp4") = true ∧
        ∀ d ∈ streams, (d.adaptive && d.only_video && d.ext == "mp4") = true →
          d.resolution ≤ w.resolution) ∧
    ((¬ ∃ d ∈ streams, (d.adaptive && d.only_video && d.ext == "mp4") = true) →
      (∃ d ∈ streams, (d.adaptive && d.only_video) = true) →
      ∃ w ∈ streams, (pick_streams streams).1 = some w ∧
        (w.adaptive && w.only_video) = true ∧
        ∀ d ∈ streams, (d.adaptive && d.only_video) = true →
          d.resolution ≤ w.resolution) ∧
    ((∃ d ∈ streams, (d.only_audio && d.ext == "mp4") = true) →
      ∃ w ∈ streams, (pick_streams streams).2 = some w ∧
        (w.only_audio && w.ext == "mp4") = true ∧
        ∀ d ∈ streams, (d.only_audio && d.ext == "mp4") = true → d.abr ≤ w.abr) ∧
    ((¬ ∃ d ∈ streams, (d.only_audio && d.ext == "mp4") = true) →
      (∃ d ∈ streams, d.only_audio = true) →
      ∃ w ∈ streams, (pick_streams streams).2 = some w ∧ w.only_audio = true ∧
        ∀ d ∈ streams, d.only_audio = true → d.abr ≤ w.abr) := by
  refine ⟨?_, ?_, ?_, ?_⟩
  · intro h
    obtain ⟨w, hw, hb, hp, hmax⟩ := bestBy_filter_spec (fun d => d.resolution)
      (fun d => d.adaptive && d.only_video && d.ext == "mp4") streams h
    refine ⟨w, hw, ?_, hp, hmax⟩
    simp only [pick_streams, hb]
  · intro hno h2
    have hnil : streams.filter
        (fun d => d.adaptive && d.only_video && d.ext == "mp4") = [] := by
      rw [List.filter_eq_nil_iff]
      intro a ha hpa
      exact hno ⟨a, ha, hpa⟩
    obtain ⟨w, hw, hb, hp, hmax⟩ := bestBy_filter_spec (fun d => d.resolution)
      (fun d => d.adaptive && d.only_video) streams h2
    refine ⟨w, hw, ?_, hp, hmax⟩
    simp only [pick_streams, hnil, bestBy, hb]
  · intro h
    obtain ⟨w, hw, hb, hp, hmax⟩ := bestBy_filter_spec (fun d => d.abr)
      (fun d => d.only_audio && d.ext == "mp4") streams h
    refine ⟨w, hw, ?_, hp, hmax⟩
    simp only [pick_streams, hb]
  · intro hno h2
    have hnil : streams.filter (fun d => d.only_audio && d.ext == "mp4") = [] := by
      rw [List.filter_eq_nil_iff]
      intro a ha hpa
      exact hno ⟨a, ha, hpa⟩
    obtain ⟨w, hw, hb, hp, hmax⟩ := bestBy_filter_spec (fun d => d.abr)
      (fun d => d.only_audio) streams h2
    refine ⟨w, hw, ?_, hp, hmax⟩
    simp only [pick_streams, hnil, bestBy, hb]

/-- C6 witness: on a concrete descriptor list with an adaptive video-only mp4
descriptor and audio-only descriptors, the theorem's clauses produce maximal
choices. -/
theorem pick_streams_highest_witness :
    ∃ w ∈ [StreamDesc.mk true true false "mp4" 720 0,
           StreamDesc.mk true true false "webm" 1080 0,
           StreamDesc.mk false false true "webm" 0 160],
      (pick_streams [StreamDesc.mk true true false "mp4" 720 0,
           StreamDesc.mk true true false "webm" 1080 0,
           StreamDesc.mk false false true "webm" 0 160]).1 = some w ∧
        (w.adaptive && w.only_video && w.ext == "mp4") = true ∧
        ∀ d ∈ [StreamDesc.mk true true false "mp4" 720 0,
           StreamDesc.mk true true false "webm" 1080 0,
           StreamDesc.mk false false true "webm" 0 160],
          (d.adaptive && d.only_video && d.ext == "mp4") = true →
          d.resolution ≤ w.resolution :=
  (pick_streams_highest _).1 (by decide)

/-! ## C2: result store lifecycle -/

theorem handleExc_state (env : Env) (s0 : SessionState) (fs : FL) (e : Exc)
    (atts : List MuxAttempt) (px : Option Proxies) :
    (handleExc env s0 fs e atts px).state = s0 ∨
    ((∃ z, (handleExc env s0 fs e atts px).state.zip_bytes = some z) ∧
     (∃ n, (handleExc env s0 fs e atts px).state.zip_name = some n) ∧
     (handleExc env s0 fs e atts px).errors = [] ∧
     (handleExc env s0 fs e atts px).successes ≠ []) := by
  by_cases h : (env.enable_fallback && is403 e) = true
  · cases hfb : fallbackJob env fs with
    | mk r fs1 =>
      cases r with
      | ok z =>
        rw [handleExc_fb_ok env s0 fs e atts px z fs1 h hfb]
        right
        exact ⟨⟨z, rfl⟩, ⟨_, rfl⟩, rfl, by simp⟩
      | error e2 =>
        rw [handleExc_fb_err env s0 fs e atts px e2 fs1 h hfb]
        left
        rfl
  · rw [handleExc_no_fallback env s0 fs e atts px (by simpa using h)]
    left
    rfl

/-- A run whose primary path fails with a non-403 error while a previous
result bundle is already stored. -/
def envFailBoom : Env :=
  ⟨true, "u", false, "", false, none, Except.error ⟨"boom", false, none⟩,
   none, none, 0, [1], 1, [2], 0, [3], 0, [4], 0, "", some [9], 0, [5], 0, [6]⟩

/-- A session state holding a bundle from an earlier successful job. -/
def oldBundleState : SessionState := ⟨some [⟨"old.mp4", 8, [1]⟩], some "old.zip"⟩

/-- C2 counterexample: a new job submission does not clear the stored result
bundle before the pipeline runs — after this failing run the old bundle is
still stored, and the new error message is displayed at the same time, so a
result bundle and an error message are simultaneously live. -/
theorem submit_no_clear_cex :
    (submit envFailBoom oldBundleState []).state.zip_bytes =
      some [⟨"old.mp4", 8, [1]⟩] ∧
    (submit envFailBoom oldBundleState []).state.zip_name = some "old.zip" ∧
    (submit envFailBoom oldBundleState []).errors = ["Erreur: boom"] := by
  refine ⟨?_, ?_, ?_⟩ <;> decide

/-- C2 (amended): the submit handler never clears the stored result bundle on
submission; the session store either remains exactly as it was (all guard and
failure paths, where the previous bundle — if any — stays live alongside any
newly displayed error), or the run succeeded, in which case both result slots
are overwritten together and no error is displayed. -/
theorem submit_state_never_cleared (env : Env) (s0 : SessionState) (fs0 : FL) :
    (submit env s0 fs0).state = s0 ∨
    ((∃ z, (submit env s0 fs0).state.zip_bytes = some z) ∧
     (∃ n, (submit env s0 fs0).state.zip_name = some n) ∧
     (submit env s0 fs0).errors = [] ∧ (submit env s0 fs0).successes ≠ []) := by
  cases hf : env.ffmpeg_ok with
  | false =>
    left
    rw [submit_no_ffmpeg env s0 fs0 hf]
  | true =>
    by_cases hu : pyStrip env.url = ""
    · left
      rw [submit_no_url env s0 fs0 hf hu]
    · cases h3 : env.ytOutcome with
      | error e =>
        rw [submit_yt_err env s0 fs0 e hf hu h3]
        exact handleExc_state env s0 fs0 e [] (mkProxies env.proxy_url)
      | ok title =>
        cases h4 : primaryJob env fs0 (sanitize title) with
        | mk r rest =>
          cases rest with
          | mk fs1 atts =>
            cases r with
            | ok z =>
              rw [submit_primary_ok env s0 fs0 title z fs1 atts hf hu h3 h4]
              right
              exact ⟨⟨z, rfl⟩, ⟨_, rfl⟩, rfl, by simp⟩
            | error e =>
              rw [submit_primary_err env s0 fs0 title e fs1 atts hf hu h3 h4]
              exact handleExc_state env s0 _ e atts (mkProxies env.proxy_url)

/-! ## C4: fallback trigger condition -/

theorem handleExc_used_iff (env : Env) (s0 : SessionState) (fs : FL) (e : Exc)
    (atts : List MuxAttempt) (px : Option Proxies) :
    ((handleExc env s0 fs e atts px).usedFallback = true ↔
      (env.enable_fallback && is403 e) = true) ∧
    ((env.enable_fallback && is403 e) = false →
      (handleExc env s0 fs e atts px).errors = ["Erreur: " ++ e.msg] ∧
      (handleExc env s0 fs e atts px).state = s0) := by
  by_cases h : (env.enable_fallback && is403 e) = true
  · refine ⟨⟨fun _ => h, fun _ => ?_⟩, fun hf => ?_⟩
    · cases hfb : fallbackJob env fs with
      | mk r fs1 =>
        cases r with
        | ok z => rw [handleExc_fb_ok env s0 fs e atts px z fs1 h hfb]
        | error e2 => rw [handleExc_fb_err env s0 fs e atts px e2 fs1 h hfb]
    · rw [hf] at h
      cases h
  · have h' : (env.enable_fallback && is403 e) = false := by simpa using h
    rw [handleExc_no_fallback env s0 fs e atts px h']
    exact ⟨by simp [h'], fun _ => ⟨rfl, rfl⟩⟩

/-- C4: once both guards pass, the fallback retrieval path runs if and only
if the primary path failed with an exception carrying the 403 signal (as the
code tests it: the substring "403" in the message, or an HTTPError with code
403) and the fallback mode is enabled; when the failure carries the 403
signal but the fallback is disabled, the run ends displaying the error
message and the result store receives no new bundle. -/
theorem fallback_iff_403 (env : Env) (s0 : SessionState) (fs0 : FL)
    (h1 : env.ffmpeg_ok = true) (h2 : pyStrip env.url ≠ "") :
    ((submit env s0 fs0).usedFallback = true ↔
      (env.enable_fallback = true ∧
        ∃ e, primaryFailure env fs0 = some e ∧ is403 e = true)) ∧
    (∀ e, primaryFailure env fs0 = some e → is403 e = true →
      env.enable_fallback = false →
      (submit env s0 fs0).errors = ["Erreur: " ++ e.msg] ∧
      (submit env s0 fs0).state = s0) := by
  cases h3 : env.ytOutcome with
  | error e0 =>
    have hpf : primaryFailure env fs0 = some e0 := by
      simp [primaryFailure, h3]
    rw [submit_yt_err env s0 fs0 e0 h1 h2 h3]
    have hh := handleExc_used_iff env s0 fs0 e0 [] (mkProxies env.proxy_url)
    constructor
    · rw [hh.1]
      constructor
      · intro hand
        have hand2 : env.enable_fallback = true ∧ is403 e0 = true := by
          simpa using hand
        exact ⟨hand2.1, e0, hpf, hand2.2⟩
      · rintro ⟨hef, e, hpe, h403⟩
        have he : e0 = e := Option.some.inj (hpf.symm.trans hpe)
        have h403b : is403 e0 = true := he ▸ h403
        simp [hef, h403b]
    · intro e hpe h403 hef
      have he : e0 = e := Option.some.inj (hpf.symm.trans hpe)
      subst he
      exact hh.2 (by rw [hef]; rfl)
  | ok title =>
    cases h4 : primaryJob env fs0 (sanitize title) with
    | mk r rest =>
      cases rest with
      | mk fs1 atts =>
        cases r with
        | ok z =>
          have hpf : primaryFailure env fs0 = none := by
            simp [primaryFailure, h3, h4]
          rw [submit_primary_ok env s0 fs0 title z fs1 atts h1 h2 h3 h4]
          refine ⟨by simp [hpf], fun e hpe => ?_⟩
          rw [hpf] at hpe
          cases hpe
        | error e0 =>
          have hpf : primaryFailure env fs0 = some e0 := by
            simp [primaryFailure, h3, h4]
          rw [submit_primary_err env s0 fs0 title e0 fs1 atts h1 h2 h3 h4]
          have hh := handleExc_used_iff env s0 (cleanupDir "tmp1" fs1) e0 atts
            (mkProxies env.proxy_url)
          constructor
          · rw [hh.1]
            constructor
            · intro hand
              have hand2 : env.enable_fallback = true ∧ is403 e0 = true := by
                simpa using hand
              exact ⟨hand2.1, e0, hpf, hand2.2⟩
            · rintro ⟨hef, e, hpe, h403⟩
              have he : e0 = e := Option.some.inj (hpf.symm.trans hpe)
              have h403b : is403 e0 = true := he ▸ h403
              simp [hef, h403b]
          · intro e hpe h403 hef
            have he : e0 = e := Option.some.inj (hpf.symm.trans hpe)
            subst he
            exact hh.2 (by rw [hef]; rfl)

/-- A run whose primary path raises HTTP 403 while the fallback is disabled. -/
def env403NoFb : Env :=
  ⟨true, "u", false, "", false, none,
   Except.error ⟨"HTTP Error 403: Forbidden", true, some 403⟩,
   none, none, 0, [1], 1, [2], 0, [3], 0, [4], 0, "", some [9], 0, [5], 0, [6]⟩

/-- C4 witness: a concrete 403 failure with the fallback disabled ends with
the access-denied message displayed and the result store untouched. -/
theorem fallback_iff_403_witness :
    (submit env403NoFb ⟨none, none⟩ []).errors =
      ["Erreur: " ++ (Exc.mk "HTTP Error 403: Forbidden" true (some 403)).msg] ∧
    (submit env403NoFb ⟨none, none⟩ []).state = ⟨none, none⟩ :=
  (fallback_iff_403 env403NoFb ⟨none, none⟩ [] rfl (by decide)).2
    ⟨"HTTP Error 403: Forbidden", true, some 403⟩ (by decide) (by decide) rfl

/-! ## C5 and C9 machinery: archive shapes -/

theorem mkZipThree_eq (fs : FL) (p1 p2 p3 : String) :
    mkZipThree fs p1 p2 p3 =
      [⟨basename p1, ZIP_DEFLATED, readFile fs p1⟩,
       ⟨basename p2, ZIP_DEFLATED, readFile fs p2⟩,
       ⟨basename p3, ZIP_DEFLATED, readFile fs p3⟩] := rfl

theorem primaryJob_ok_shape (env : Env) (fs : FL) (base : String)
    (z : List ZipEntry) (fs' : FL) (atts : List MuxAttempt)
    (hb : '/' ∉ base.toList)
    (h : primaryJob env fs base = (Except.ok z, fs', atts)) :
    ∃ m4, (m4 = env.copyBytes ∨ m4 = env.encBytes) ∧
      z = [⟨base ++ ".mp4", ZIP_DEFLATED, m4⟩,
           ⟨base ++ ".mp3", ZIP_DEFLATED, env.mp3Bytes⟩,
           ⟨base ++ ".wav", ZIP_DEFLATED, env.wavBytes⟩] := by
  have h34 : joinPath "tmp1" (base ++ ".mp3") ≠ joinPath "tmp1" (base ++ ".wav") :=
    joinPath_sfx_ne "tmp1" base ".mp3" ".wav" (by decide)
  have h14 : joinPath "tmp1" (base ++ ".mp4") ≠ joinPath "tmp1" (base ++ ".wav") :=
    joinPath_sfx_ne "tmp1" base ".mp4" ".wav" (by decide)
  have h13 : joinPath "tmp1" (base ++ ".mp4") ≠ joinPath "tmp1" (base ++ ".mp3") :=
    joinPath_sfx_ne "tmp1" base ".mp4" ".mp3" (by decide)
  have hb4 : basename (joinPath "tmp1" (base ++ ".mp4")) = base ++ ".mp4" :=
    basename_join _ _ (no_slash_append base ".mp4" hb (by decide))
  have hb3 : basename (joinPath "tmp1" (base ++ ".mp3")) = base ++ ".mp3" :=
    basename_join _ _ (no_slash_append base ".mp3" hb (by decide))
  have hbw : basename (joinPath "tmp1" (base ++ ".wav")) = base ++ ".wav" :=
    basename_join _ _ (no_slash_append base ".wav" hb (by decide))
  cases hv : env.vStream with
  | none => simp [primaryJob, hv] at h
  | some vb =>
    cases ha : env.aStream with
    | none => simp [primaryJob, hv, ha] at h
    | some ab =>
      by_cases hc : env.copyExit = 0
      · by_cases hm : env.mp3Exit = 0
        · by_cases hw : env.wavExit = 0
          · refine ⟨env.copyBytes, Or.inl rfl, ?_⟩
            simp only [primaryJob, hv, ha, merge_to_mp4, if_pos hc,
              if_neg (not_not_intro hm), if_neg (not_not_intro hw),
              Prod.mk.injEq] at h
            rw [← Except.ok.inj h.1]
            rw [mkZipThree_eq, hb4, hb3, hbw,
              readFile_writeFile_same,
              readFile_writeFile_other _ _ _ _ h34,
              readFile_writeFile_same,
              readFile_writeFile_other _ _ _ _ h14,
              readFile_writeFile_other _ _ _ _ h13,
              readFile_writeFile_same]
          · exfalso
            simp [primaryJob, hv, ha, merge_to_mp4, hc, hm, hw] at h
        · exfalso
          simp [primaryJob, hv, ha, merge_to_mp4, hc, hm] at h
      · by_cases he : env.encExit = 0
        · by_cases hm : env.mp3Exit = 0
          · by_cases hw : env.wavExit = 0
            · refine ⟨env.encBytes, Or.inr rfl, ?_⟩
              simp only [primaryJob, hv, ha, merge_to_mp4, if_neg hc, if_pos he,
                if_neg (not_not_intro hm), if_neg (not_not_intro hw),
                Prod.mk.injEq] at h
              rw [← Except.ok.inj h.1]
              rw [mkZipThree_eq, hb4, hb3, hbw,
                readFile_writeFile_same,
                readFile_writeFile_other _ _ _ _ h34,
                readFile_writeFile_same,
                readFile_writeFile_other _ _ _ _ h14,
                readFile_writeFile_other _ _ _ _ h13,
                readFile_writeFile_same]
            · exfalso
              simp [primaryJob, hv, ha, merge_to_mp4, hc, he, hm, hw] at h
          · exfalso
            simp [primaryJob, hv, ha, merge_to_mp4, hc, he, hm] at h
        · exfalso
          simp [primaryJob, hv, ha, merge_to_mp4, hc, he] at h

theorem ytdlp_ok_shape (env : Env) (fs : FL) (t b : String) (p : String) (fs2 : FL)
    (h : ytdlp_download_mp4 env fs t b = Except.ok (p, fs2)) :
    p = joinPath t (b ++ ".mp4") ∧ fileExists fs2 p = true := by
  unfold ytdlp_download_mp4 at h
  by_cases hx : env.ytdlpExit ≠ 0
  · rw [if_pos hx] at h
    cases h
  · rw [if_neg hx] at h
    cases hfile : env.ytdlpFile with
    | some bb =>
      simp only [hfile, fileExists_writeFile_same, if_pos rfl] at h
      obtain ⟨hp, hfs⟩ := Prod.mk.injEq .. ▸ Except.ok.inj h
      subst hp
      subst hfs
      exact ⟨rfl, fileExists_writeFile_same _ _ _⟩
    | none =>
      simp only [hfile] at h
      by_cases hex : fileExists fs (joinPath t (b ++ ".mp4")) = true
      · rw [if_pos hex] at h
        obtain ⟨hp, hfs⟩ := Prod.mk.injEq .. ▸ Except.ok.inj h
        subst hp
        subst hfs
        exact ⟨rfl, hex⟩
      · rw [if_neg hex] at h
        cases h

theorem ytdlp_error_iff (env : Env) (fs : FL) (t b : String)
    (hnf : fileExists fs (joinPath t (b ++ ".mp4")) = false) :
    (∃ e, ytdlp_download_mp4 env fs t b = Except.error e) ↔
      (env.ytdlpExit ≠ 0 ∨ env.ytdlpFile = none) := by
  unfold ytdlp_download_mp4
  by_cases hx : env.ytdlpExit ≠ 0
  · rw [if_pos hx]
    simp [hx]
  · rw [if_neg hx]
    cases hfile : env.ytdlpFile with
    | some bb => simp [hfile, fileExists_writeFile_same, hx]
    | none => simp [hfile, hnf, hx]

theorem fallbackJob_ok_shape (env : Env) (fs : FL) (z : List ZipEntry) (fs' : FL)
    (h : fallbackJob env fs = (Except.ok z, fs')) :
    ∃ m4, z = [⟨"video.mp4", ZIP_DEFLATED, m4⟩,
               ⟨"video.mp3", ZIP_DEFLATED, env.fbMp3Bytes⟩,
               ⟨"video.wav", ZIP_DEFLATED, env.fbWavBytes⟩] := by
  have hsv : sanitize "video" = "video" := by decide
  have n34 : joinPath "tmp2" ("video" ++ ".mp3") ≠ joinPath "tmp2" ("video" ++ ".wav") := by
    decide
  have n14 : joinPath "tmp2" ("video" ++ ".mp4") ≠ joinPath "tmp2" ("video" ++ ".wav") := by
    decide
  have n13 : joinPath "tmp2" ("video" ++ ".mp4") ≠ joinPath "tmp2" ("video" ++ ".mp3") := by
    decide
  have b4 : basename (joinPath "tmp2" ("video" ++ ".mp4")) = "video.mp4" := by decide
  have b3 : basename (joinPath "tmp2" ("video" ++ ".mp3")) = "video.mp3" := by decide
  have bw : basename (joinPath "tmp2" ("video" ++ ".wav")) = "video.wav" := by decide
  simp only [fallbackJob, hsv] at h
  cases hyd : ytdlp_download_mp4 env (cookiesPrep env fs) "tmp2" "video" with
  | error e =>
    simp only [hyd] at h
    cases h
  | ok pr =>
    obtain ⟨mp4p, fs2⟩ := pr
    obtain ⟨hp, hex⟩ := ytdlp_ok_shape env (cookiesPrep env fs) "tmp2" "video" mp4p fs2 hyd
    subst hp
    simp only [hyd] at h
    by_cases hm : env.fbMp3Exit = 0
    · by_cases hw : env.fbWavExit = 0
      · simp only [if_neg (not_not_intro hm), if_neg (not_not_intro hw),
          Prod.mk.injEq] at h
        refine ⟨readFile fs2 (joinPath "tmp2" ("video" ++ ".mp4")), ?_⟩
        rw [← Except.ok.inj h.1]
        rw [mkZipThree_eq, b4, b3, bw,
          readFile_writeFile_same,
          readFile_writeFile_other _ _ _ _ n34,
          readFile_writeFile_same,
          readFile_writeFile_other _ _ _ _ n14,
          readFile_writeFile_other _ _ _ _ n13]
      · exfalso
        simp [hm, hw] at h
    · exfalso
      simp [hm] at h

theorem handleExc_success_shape (env : Env) (s0 : SessionState) (fs : FL) (e : Exc)
    (atts : List MuxAttempt) (px : Option Proxies)
    (hs : (handleExc env s0 fs e atts px).successes ≠ []) :
    ∃ m4, (handleExc env s0 fs e atts px).usedFallback = true ∧
      (handleExc env s0 fs e atts px).state.zip_name =
        some (sanitize "video" ++ ".zip") ∧
      (handleExc env s0 fs e atts px).state.zip_bytes =
        some [⟨"video.mp4", ZIP_DEFLATED, m4⟩,
              ⟨"video.mp3", ZIP_DEFLATED, env.fbMp3Bytes⟩,
              ⟨"video.wav", ZIP_DEFLATED, env.fbWavBytes⟩] := by
  by_cases h : (env.enable_fallback && is403 e) = true
  · cases hfb : fallbackJob env fs with
    | mk r fs1 =>
      cases r with
      | ok z =>
        obtain ⟨m4, hz⟩ := fallbackJob_ok_shape env fs z fs1 hfb
        rw [handleExc_fb_ok env s0 fs e atts px z fs1 h hfb]
        exact ⟨m4, rfl, rfl, by rw [hz]⟩
      | error e2 =>
        rw [handleExc_fb_err env s0 fs e atts px e2 fs1 h hfb] at hs
        simp at hs
  · rw [handleExc_no_fallback env s0 fs e atts px (by simpa using h)] at hs
    simp at hs

/-- C5: every successful run stores an archive with exactly three entries,
named by the base names of the mp4, mp3 and wav outputs with no slash (hence
no path prefix), each using the deflate method, and whose decompressed data
are exactly the bytes of the corresponding scratch files; the stored display
name is the base name plus `.zip`. -/
theorem zip_three_entries_roundtrip (env : Env) (s0 : SessionState) (fs0 : FL)
    (hs : (submit env s0 fs0).successes ≠ []) :
    ∃ base m4 m3 w,
      '/' ∉ base.toList ∧
      (submit env s0 fs0).state.zip_name = some (base ++ ".zip") ∧
      (submit env s0 fs0).state.zip_bytes =
        some [⟨base ++ ".mp4", ZIP_DEFLATED, m4⟩,
              ⟨base ++ ".mp3", ZIP_DEFLATED, m3⟩,
              ⟨base ++ ".wav", ZIP_DEFLATED, w⟩] ∧
      (((submit env s0 fs0).usedFallback = false ∧
          (m4 = env.copyBytes ∨ m4 = env.encBytes) ∧
          m3 = env.mp3Bytes ∧ w = env.wavBytes) ∨
       ((submit env s0 fs0).usedFallback = true ∧
          m3 = env.fbMp3Bytes ∧ w = env.fbWavBytes)) := by
  cases hf : env.ffmpeg_ok with
  | false =>
    rw [submit_no_ffmpeg env s0 fs0 hf] at hs
    simp at hs
  | true =>
    by_cases hu : pyStrip env.url = ""
    · rw [submit_no_url env s0 fs0 hf hu] at hs
      simp at hs
    · cases h3 : env.ytOutcome with
      | error e =>
        rw [submit_yt_err env s0 fs0 e hf hu h3] at hs ⊢
        obtain ⟨m4, hufb, hname, hbytes⟩ :=
          handleExc_success_shape env s0 fs0 e [] (mkProxies env.proxy_url) hs
        refine ⟨"video", m4, env.fbMp3Bytes, env.fbWavBytes, by decide, ?_, ?_,
          Or.inr ⟨hufb, rfl, rfl⟩⟩
        · exact hname.trans (by decide)
        · rw [show ("video" : String) ++ ".mp4" = "video.mp4" from by decide,
            show ("video" : String) ++ ".mp3" = "video.mp3" from by decide,
            show ("video" : String) ++ ".wav" = "video.wav" from by decide]
          exact hbytes
      | ok title =>
        cases h4 : primaryJob env fs0 (sanitize title) with
        | mk r rest =>
          cases rest with
          | mk fs1 atts =>
            cases r with
            | ok z =>
              obtain ⟨m4, hm4, hz⟩ := primaryJob_ok_shape env fs0 (sanitize title)
                z fs1 atts (sanitize_no_slash title) h4
              rw [submit_primary_ok env s0 fs0 title z fs1 atts hf hu h3 h4]
              refine ⟨sanitize title, m4, env.mp3Bytes, env.wavBytes,
                sanitize_no_slash title, rfl, ?_, Or.inl ⟨rfl, hm4, rfl, rfl⟩⟩
              simp only [hz]
            | error e =>
              rw [submit_primary_err env s0 fs0 title e fs1 atts hf hu h3 h4] at hs ⊢
              obtain ⟨m4, hufb, hname, hbytes⟩ :=
                handleExc_success_shape env s0 (cleanupDir "tmp1" fs1) e atts
                  (mkProxies env.proxy_url) hs
              refine ⟨"video", m4, env.fbMp3Bytes, env.fbWavBytes, by decide, ?_, ?_,
                Or.inr ⟨hufb, rfl, rfl⟩⟩
              · exact hname.trans (by decide)
              · rw [show ("video" : String) ++ ".mp4" = "video.mp4" from by decide,
                  show ("video" : String) ++ ".mp3" = "video.mp3" from by decide,
                  show ("video" : String) ++ ".wav" = "video.wav" from by decide]
                exact hbytes

/-- C5 witness: a concrete successful primary run produces exactly the three
deflate entries named after the sanitized title with the pipeline's bytes. -/
theorem zip_three_entries_roundtrip_witness :
    ∃ base m4 m3 w,
      '/' ∉ base.toList ∧
      (submit ⟨true, "u", false, "p", true, none, Except.ok "My Title",
          some [11], some [12], 0, [1], 1, [2], 0, [3], 0, [4], 1, "", none,
          0, [5], 0, [6]⟩ ⟨none, none⟩ []).state.zip_name = some (base ++ ".zip") ∧
      (submit ⟨true, "u", false, "p", true, none, Except.ok "My Title",
          some [11], some [12], 0, [1], 1, [2], 0, [3], 0, [4], 1, "", none,
          0, [5], 0, [6]⟩ ⟨none, none⟩ []).state.zip_bytes =
        some [⟨base ++ ".mp4", ZIP_DEFLATED, m4⟩,
              ⟨base ++ ".mp3", ZIP_DEFLATED, m3⟩,
              ⟨base ++ ".wav", ZIP_DEFLATED, w⟩] ∧
      (((submit ⟨true, "u", false, "p", true, none, Except.ok "My Title",
          some [11], some [12], 0, [1], 1, [2], 0, [3], 0, [4], 1, "", none,
          0, [5], 0, [6]⟩ ⟨none, none⟩ []).usedFallback = false ∧
          (m4 = [1] ∨ m4 = [2]) ∧ m3 = [3] ∧ w = [4]) ∨
       ((submit ⟨true, "u", false, "p", true, none, Except.ok "My Title",
          some [11], some [12], 0, [1], 1, [2], 0, [3], 0, [4], 1, "", none,
          0, [5], 0, [6]⟩ ⟨none, none⟩ []).usedFallback = true ∧
          m3 = [5] ∧ w = [6])) :=
  zip_three_entries_roundtrip _ ⟨none, none⟩ [] (by decide)

/-- C9: the fallback download helper raises exactly when the yt-dlp exit
status is non-zero or the merged mp4 is absent at the predictable path
`tmpdir/base.mp4` after the run; and every successful fallback run stores an
archive named `video.zip` (the placeholder title) with the mp4, mp3 and wav
entry kinds. -/
theorem ytdlp_outcome_and_fallback_bundle (env : Env) (s0 : SessionState)
    (fs0 fs : FL) (tmpdir base : String) :
    (fileExists fs (joinPath tmpdir (base ++ ".mp4")) = false →
      ((∃ e, ytdlp_download_mp4 env fs tmpdir base = Except.error e) ↔
        (env.ytdlpExit ≠ 0 ∨ env.ytdlpFile = none))) ∧
    ((submit env s0 fs0).usedFallback = true →
      (submit env s0 fs0).successes ≠ [] →
      (submit env s0 fs0).state.zip_name = some "video.zip" ∧
      ∃ m4, (submit env s0 fs0).state.zip_bytes =
        some [⟨"video.mp4", ZIP_DEFLATED, m4⟩,
              ⟨"video.mp3", ZIP_DEFLATED, env.fbMp3Bytes⟩,
              ⟨"video.wav", ZIP_DEFLATED, env.fbWavBytes⟩]) := by
  refine ⟨fun hnf => ytdlp_error_iff env fs tmpdir base hnf, ?_⟩
  intro hufb hs
  cases hf : env.ffmpeg_ok with
  | false =>
    rw [submit_no_ffmpeg env s0 fs0 hf] at hufb
    simp at hufb
  | true =>
    by_cases hu : pyStrip env.url = ""
    · rw [submit_no_url env s0 fs0 hf hu] at hufb
      simp at hufb
    · cases h3 : env.ytOutcome with
      | error e =>
        rw [submit_yt_err env s0 fs0 e hf hu h3] at hs ⊢
        obtain ⟨m4, _, hname, hbytes⟩ :=
          handleExc_success_shape env s0 fs0 e [] (mkProxies env.proxy_url) hs
        refine ⟨?_, m4, hbytes⟩
        exact hname.trans (by decide)
      | ok title =>
        cases h4 : primaryJob env fs0 (sanitize title) with
        | mk r rest =>
          cases rest with
          | mk fs1 atts =>
            cases r with
            | ok z =>
              rw [submit_primary_ok env s0 fs0 title z fs1 atts hf hu h3 h4] at hufb
              simp at hufb
            | error e =>
              rw [submit_primary_err env s0 fs0 title e fs1 atts hf hu h3 h4] at hs ⊢
              obtain ⟨m4, _, hname, hbytes⟩ :=
                handleExc_success_shape env s0 (cleanupDir "tmp1" fs1) e atts
                  (mkProxies env.proxy_url) hs
              refine ⟨?_, m4, hbytes⟩
              exact hname.trans (by decide)

/-- C9 witness: a concrete 403 failure with the fallback enabled and yt-dlp
succeeding stores the placeholder-named archive with the three entry kinds. -/
theorem ytdlp_outcome_and_fallback_bundle_witness :
    (submit ⟨true, "u", false, " ", true, some [7],
        Except.error ⟨"HTTP Error 403: Forbidden", true, some 403⟩,
        none, none, 0, [1], 1, [2], 0, [3], 0, [4], 0, "", some [9],
        0, [5], 0, [6]⟩ ⟨none, none⟩ []).state.zip_name = some "video.zip" ∧
    ∃ m4, (submit ⟨true, "u", false, " ", true, some [7],
        Except.error ⟨"HTTP Error 403: Forbidden", true, some 403⟩,
        none, none, 0, [1], 1, [2], 0, [3], 0, [4], 0, "", some [9],
        0, [5], 0, [6]⟩ ⟨none, none⟩ []).state.zip_bytes =
      some [⟨"video.mp4", ZIP_DEFLATED, m4⟩,
            ⟨"video.mp3", ZIP_DEFLATED, [5]⟩,
            ⟨"video.wav", ZIP_DEFLATED, [6]⟩] :=
  (ytdlp_outcome_and_fallback_bundle _ ⟨none, none⟩ [] [] "tmp2" "video").2
    (by decide) (by decide)

/-! ## C8: scratch cleanup -/

theorem mem_writeFile_under (d n : String) (fs : FL) (c : Bytes) (p : String)
    (b : Bytes) (h : (p, b) ∈ writeFile fs (joinPath d n) c) :
    underDir d p = true ∨ (p, b) ∈ fs := by
  rcases mem_writeFile fs p (joinPath d n) b c h with ⟨h1, _⟩ | h1
  · left
    rw [h1]
    exact underDir_joinPath d n
  · right
    exact h1

theorem under_or_mono (d : String) (fs fs0 : FL) (p : String) (b : Bytes)
    (hstep : underDir d p = true ∨ (p, b) ∈ fs)
    (hrec : (p, b) ∈ fs → underDir d p = true ∨ (p, b) ∈ fs0) :
    underDir d p = true ∨ (p, b) ∈ fs0 :=
  hstep.elim Or.inl hrec

theorem primaryJob_fs_mem (env : Env) (fs : FL) (base : String) :
    ∀ p b, (p, b) ∈ (primaryJob env fs base).2.1 →
      underDir "tmp1" p = true ∨ (p, b) ∈ fs := by
  intro p b hp
  cases hv : env.vStream with
  | none =>
    simp only [primaryJob, hv] at hp
    exact Or.inr hp
  | some vb =>
    cases ha : env.aStream with
    | none =>
      simp only [primaryJob, hv, ha] at hp
      exact Or.inr hp
    | some ab =>
      by_cases hc : env.copyExit = 0
      · by_cases hm : env.mp3Exit = 0
        · by_cases hw : env.wavExit = 0
          · simp only [primaryJob, hv, ha, merge_to_mp4, if_pos hc,
              if_neg (not_not_intro hm), if_neg (not_not_intro hw)] at hp
            refine under_or_mono _ _ _ _ _ (mem_writeFile_under "tmp1" _ _ _ p b hp)
              (fun hp2 => ?_)
            refine under_or_mono _ _ _ _ _ (mem_writeFile_under "tmp1" _ _ _ p b hp2)
              (fun hp3 => ?_)
            refine under_or_mono _ _ _ _ _ (mem_writeFile_under "tmp1" _ _ _ p b hp3)
              (fun hp4 => ?_)
            refine under_or_mono _ _ _ _ _ (mem_writeFile_under "tmp1" _ _ _ p b hp4)
              (fun hp5 => ?_)
            exact mem_writeFile_under "tmp1" _ _ _ p b hp5
          · simp only [primaryJob, hv, ha, merge_to_mp4, if_pos hc,
              if_neg (not_not_intro hm), if_pos hw] at hp
            refine under_or_mono _ _ _ _ _ (mem_writeFile_under "tmp1" _ _ _ p b hp)
              (fun hp2 => ?_)
            refine under_or_mono _ _ _ _ _ (mem_writeFile_under "tmp1" _ _ _ p b hp2)
              (fun hp3 => ?_)
            refine under_or_mono _ _ _ _ _ (mem_writeFile_under "tmp1" _ _ _ p b hp3)
              (fun hp4 => ?_)
            exact mem_writeFile_under "tmp1" _ _ _ p b hp4
        · simp only [primaryJob, hv, ha, merge_to_mp4, if_pos hc,
            if_pos hm] at hp
          refine under_or_mono _ _ _ _ _ (mem_writeFile_under "tmp1" _ _ _ p b hp)
            (fun hp2 => ?_)
          refine under_or_mono _ _ _ _ _ (mem_writeFile_under "tmp1" _ _ _ p b hp2)
            (fun hp3 => ?_)
          exact mem_writeFile_under "tmp1" _ _ _ p b hp3
      · by_cases he : env.encExit = 0
        · by_cases hm : env.mp3Exit = 0
          · by_cases hw : env.wavExit = 0
            · simp only [primaryJob, hv, ha, merge_to_mp4, if_neg hc, if_pos he,
                if_neg (not_not_intro hm), if_neg (not_not_intro hw)] at hp
              refine under_or_mono _ _ _ _ _ (mem_writeFile_under "tmp1" _ _ _ p b hp)
                (fun hp2 => ?_)
              refine under_or_mono _ _ _ _ _ (mem_writeFile_under "tmp1" _ _ _ p b hp2)
                (fun hp3 => ?_)
              refine under_or_mono _ _ _ _ _ (mem_writeFile_under "tmp1" _ _ _ p b hp3)
                (fun hp4 => ?_)
              refine under_or_mono _ _ _ _ _ (mem_writeFile_under "tmp1" _ _ _ p b hp4)
                (fun hp5 => ?_)
              exact mem_writeFile_under "tmp1" _ _ _ p b hp5
            · simp only [primaryJob, hv, ha, merge_to_mp4, if_neg hc, if_pos he,
                if_neg (not_not_intro hm), if_pos hw] at hp
              refine under_or_mono _ _ _ _ _ (mem_writeFile_under "tmp1" _ _ _ p b hp)
                (fun hp2 => ?_)
              refine under_or_mono _ _ _ _ _ (mem_writeFile_under "tmp1" _ _ _ p b hp2)
                (fun hp3 => ?_)
              refine under_or_mono _ _ _ _ _ (mem_writeFile_under "tmp1" _ _ _ p b hp3)
                (fun hp4 => ?_)
              exact mem_writeFile_under "tmp1" _ _ _ p b hp4
          · simp only [primaryJob, hv, ha, merge_to_mp4, if_neg hc, if_pos he,
              if_pos hm] at hp
            refine under_or_mono _ _ _ _ _ (mem_writeFile_under "tmp1" _ _ _ p b hp)
              (fun hp2 => ?_)
            refine under_or_mono _ _ _ _ _ (mem_writeFile_under "tmp1" _ _ _ p b hp2)
              (fun hp3 => ?_)
            exact mem_writeFile_under "tmp1" _ _ _ p b hp3
        · simp only [primaryJob, hv, ha, merge_to_mp4, if_neg hc, if_neg he] at hp
          refine under_or_mono _ _ _ _ _ (mem_writeFile_under "tmp1" _ _ _ p b hp)
            (fun hp2 => ?_)
          exact mem_writeFile_under "tmp1" _ _ _ p b hp2

theorem ytdlp_fs_mem (env : Env) (fs : FL) (t n : String) (p0 : String) (fs2 : FL)
    (h : ytdlp_download_mp4 env fs t n = Except.ok (p0, fs2)) :
    ∀ p b, (p, b) ∈ fs2 → underDir t p = true ∨ (p, b) ∈ fs := by
  unfold ytdlp_download_mp4 at h
  by_cases hx : env.ytdlpExit ≠ 0
  · rw [if_pos hx] at h
    cases h
  · rw [if_neg hx] at h
    cases hfile : env.ytdlpFile with
    | some bb =>
      simp only [hfile, fileExists_writeFile_same, if_pos rfl] at h
      have hfs : writeFile fs (joinPath t (n ++ ".mp4")) bb = fs2 :=
        (Prod.mk.injEq .. ▸ Except.ok.inj h).2
      intro p b hp
      rw [← hfs] at hp
      exact mem_writeFile_under t _ _ _ p b hp
    | none =>
      simp only [hfile] at h
      by_cases hex : fileExists fs (joinPath t (n ++ ".mp4")) = true
      · rw [if_pos hex] at h
        have hfs : fs = fs2 := (Prod.mk.injEq .. ▸ Except.ok.inj h).2
        intro p b hp
        rw [← hfs] at hp
        exact Or.inr hp
      · rw [if_neg hex] at h
        cases h

theorem cookiesPrep_fs_mem (env : Env) (fs : FL) :
    ∀ p b, (p, b) ∈ cookiesPrep env fs → underDir "tmp2" p = true ∨ (p, b) ∈ fs := by
  intro p b hp
  cases hck : env.cookies_file with
  | none =>
    simp only [cookiesPrep, hck] at hp
    exact Or.inr hp
  | some cb =>
    simp only [cookiesPrep, hck] at hp
    exact mem_writeFile_under "tmp2" _ _ _ p b hp

theorem fallbackJob_fs_mem (env : Env) (fs : FL) :
    ∀ p b, (p, b) ∈ (fallbackJob env fs).2 →
      underDir "tmp2" p = true ∨ (p, b) ∈ fs := by
  intro p b hp
  have hsv : sanitize "video" = "video" := by decide
  simp only [fallbackJob, hsv] at hp
  cases hyd : ytdlp_download_mp4 env (cookiesPrep env fs) "tmp2" "video" with
  | error e =>
    simp only [hyd] at hp
    exact cookiesPrep_fs_mem env fs p b hp
  | ok pr =>
    obtain ⟨mp4p, fs2⟩ := pr
    simp only [hyd] at hp
    have hydm := ytdlp_fs_mem env (cookiesPrep env fs) "tmp2" "video" mp4p fs2 hyd
    by_cases hm : env.fbMp3Exit = 0
    · by_cases hw : env.fbWavExit = 0
      · simp only [if_neg (not_not_intro hm), if_neg (not_not_intro hw)] at hp
        refine under_or_mono _ _ _ _ _ (mem_writeFile_under "tmp2" _ _ _ p b hp)
          (fun hp2 => ?_)
        refine under_or_mono _ _ _ _ _ (mem_writeFile_under "tmp2" _ _ _ p b hp2)
          (fun hp3 => ?_)
        exact under_or_mono _ _ _ _ _ (hydm p b hp3) (cookiesPrep_fs_mem env fs p b)
      · simp only [if_neg (not_not_intro hm), if_pos hw] at hp
        refine under_or_mono _ _ _ _ _ (mem_writeFile_under "tmp2" _ _ _ p b hp)
          (fun hp2 => ?_)
        exact under_or_mono _ _ _ _ _ (hydm p b hp2) (cookiesPrep_fs_mem env fs p b)
    · simp only [if_pos hm] at hp
      exact under_or_mono _ _ _ _ _ (hydm p b hp) (cookiesPrep_fs_mem env fs p b)

theorem scratchFree_iff (fs : FL) : scratchFree fs = true ↔
    ∀ p b, (p, b) ∈ fs →
      underDir "tmp1" p = false ∧ underDir "tmp2" p = false := by
  unfold scratchFree
  rw [List.all_eq_true]
  constructor
  · intro h p b hp
    have h2 := h (p, b) hp
    simpa using h2
  · intro h e he
    obtain ⟨p, b⟩ := e
    have h2 := h p b he
    simpa using h2

theorem handleExc_scratch (env : Env) (s0 : SessionState) (fs : FL) (e : Exc)
    (atts : List MuxAttempt) (px : Option Proxies)
    (hf : ∀ p b, (p, b) ∈ fs →
      underDir "tmp1" p = false ∧ underDir "tmp2" p = false) :
    ∀ p b, (p, b) ∈ (handleExc env s0 fs e atts px).fs →
      underDir "tmp1" p = false ∧ underDir "tmp2" p = false := by
  by_cases h : (env.enable_fallback && is403 e) = true
  · cases hfb : fallbackJob env fs with
    | mk r fs1 =>
      have hmem : ∀ p b, (p, b) ∈ fs1 → underDir "tmp2" p = true ∨ (p, b) ∈ fs := by
        intro p b hp
        exact fallbackJob_fs_mem env fs p b (by rw [hfb]; exact hp)
      have hclean : ∀ p b, (p, b) ∈ cleanupDir "tmp2" fs1 →
          underDir "tmp1" p = false ∧ underDir "tmp2" p = false := by
        intro p b hp
        obtain ⟨hp1, h2f⟩ := mem_cleanupDir fs1 "tmp2" p b hp
        rcases hmem p b hp1 with h2t | hfs
        · rw [h2t] at h2f
          cases h2f
        · exact hf p b hfs
      cases r with
      | ok z =>
        rw [handleExc_fb_ok env s0 fs e atts px z fs1 h hfb]
        exact hclean
      | error e2 =>
        rw [handleExc_fb_err env s0 fs e atts px e2 fs1 h hfb]
        exact hclean
  · rw [handleExc_no_fallback env s0 fs e atts px (by simpa using h)]
    exact hf

/-- C8: one run of the submit handler never leaks scratch files: when no file
under either temporary-directory scope exists before the run, none exists
after it, on every exit path — success, primary failure with or without the
fallback, and fallback failure. -/
theorem scratch_cleanup (env : Env) (s0 : SessionState) (fs0 : FL)
    (h0 : scratchFree fs0 = true) : scratchFree (submit env s0 fs0).fs = true := by
  have hf0 := (scratchFree_iff fs0).mp h0
  rw [scratchFree_iff]
  cases hf : env.ffmpeg_ok with
  | false =>
    rw [submit_no_ffmpeg env s0 fs0 hf]
    exact hf0
  | true =>
    by_cases hu : pyStrip env.url = ""
    · rw [submit_no_url env s0 fs0 hf hu]
      exact hf0
    · cases h3 : env.ytOutcome with
      | error e =>
        rw [submit_yt_err env s0 fs0 e hf hu h3]
        exact handleExc_scratch env s0 fs0 e [] (mkProxies env.proxy_url) hf0
      | ok title =>
        cases h4 : primaryJob env fs0 (sanitize title) with
        | mk r rest =>
          cases rest with
          | mk fs1 atts =>
            have hmem : ∀ p b, (p, b) ∈ fs1 →
                underDir "tmp1" p = true ∨ (p, b) ∈ fs0 := by
              intro p b hp
              exact primaryJob_fs_mem env fs0 (sanitize title) p b
                (by rw [h4]; exact hp)
            have hclean : ∀ p b, (p, b) ∈ cleanupDir "tmp1" fs1 →
                underDir "tmp1" p = false ∧ underDir "tmp2" p = false := by
              intro p b hp
              obtain ⟨hp1, h1f⟩ := mem_cleanupDir fs1 "tmp1" p b hp
              rcases hmem p b hp1 with h1t | hfs
              · rw [h1t] at h1f
                cases h1f
              · exact hf0 p b hfs
            cases r with
            | ok z =>
              rw [submit_primary_ok env s0 fs0 title z fs1 atts hf hu h3 h4]
              exact hclean
            | error e =>
              rw [submit_primary_err env s0 fs0 title e fs1 atts hf hu h3 h4]
              exact handleExc_scratch env s0 (cleanupDir "tmp1" fs1) e atts
                (mkProxies env.proxy_url) hclean

/-- C8 witness: a concrete run through the fallback path (403 failure, cookies
written, yt-dlp success) leaves a scratch-free disk. -/
theorem scratch_cleanup_witness :
    scratchFree (submit ⟨true, "u", false, " ", true, some [7],
        Except.error ⟨"HTTP Error 403: Forbidden", true, some 403⟩,
        none, none, 0, [1], 1, [2], 0, [3], 0, [4], 0, "", some [9],
        0, [5], 0, [6]⟩ ⟨none, none⟩ []).fs = true :=
  scratch_cleanup _ ⟨none, none⟩ [] rfl
